import Mathlib

/-!
Verification of the NUT UDP event bridge (src/nut_udp_bridge.py).

Python strings are modeled as lists of characters (`Str`).  The status
vocabulary handled by the bridge is ASCII, so Python's `str.upper` /
`str.lower` are modeled by mapping `Char.toUpper` / `Char.toLower`, the
whitespace notion of `str.strip` / `str.split` by `Char.isWhitespace`,
and the substring test `needle in s` by list-infix containment.
Python floats are modeled as exact rationals.
-/

set_option maxHeartbeats 1000000

/-- Model of a Python `str`: a list of characters. -/
abbrev Str := List Char

/-- Embed a Lean string literal into the model type. -/
def str (s : String) : Str := s.data

/-- Python `s.upper()` (ASCII). -/
def pyUpper (s : Str) : Str := s.map Char.toUpper

/-- Python `s.lower()` (ASCII). -/
def pyLower (s : Str) : Str := s.map Char.toLower

/-- Python `s.strip()`: drop leading and trailing whitespace. -/
def pyStrip (s : Str) : Str :=
  List.rdropWhile Char.isWhitespace (List.dropWhile Char.isWhitespace s)

/-- Python `needle in s`: substring containment. -/
def pyContains (s needle : Str) : Bool := decide (needle <:+: s)

/-- Python `s.replace(old, new)` for single characters. -/
def pyReplaceChar (s : Str) (old new : Char) : Str :=
  s.map (fun c => if c = old then new else c)

/-- Python `s.split()`: split on runs of whitespace, discarding empty pieces
(equivalently: split at every whitespace character, then drop the empty
fragments). -/
def pySplit (s : Str) : List Str :=
  (s.splitOnP (fun c => c.isWhitespace)).filter (fun t => !t.isEmpty)

/-- Python `sep.join(ts)`. -/
def pyJoin (sep : Str) : List Str → Str
  | [] => []
  | [t] => t
  | t :: u :: ts => t ++ sep ++ pyJoin sep (u :: ts)

/-- Python `d.get(k)` on the parsed key-value mapping. -/
def dictGet (d : List (Str × Str)) (k : Str) : Option Str :=
  (d.find? (fun p => p.1 == k)).map (fun p => p.2)

/-- `map_status` (src/nut_udp_bridge.py lines 48-76): map a NUT `ups.status`
string to a severity code and label, highest severity first. -/
def map_status (raw : Str) : Nat × Str :=
  let s := pyUpper (pyStrip raw)
  if s = [] then (9, str "unknown")
  else if pyContains s (str "FSD") then (6, str "shutdown_imminent")
  else if pyContains s (str "OVER") then (5, str "overload")
  else if pyContains s (str "RB") || pyContains s (str "REPLACE") then
    (4, str "replace_battery")
  else if pyContains s (str "LB") || pyContains s (str "LOW") then
    (3, str "low_battery")
  else if pyContains s (str "OB") || pyContains s (str "ONBATT")
      || pyContains s (str "ON BATTERY") then (2, str "on_battery")
  else if pyContains s (str "OL") || pyContains s (str "ONLINE") then
    (1, str "online")
  else (9, str "unknown")

/-- `parse_ups_on_line` (lines 79-88): 1 on mains, 0 on battery, -1 unknown. -/
def parse_ups_on_line (raw : Str) : Int :=
  let s := pyUpper raw
  if pyContains s (str "OB") || pyContains s (str "ONBATT")
      || pyContains s (str "ON BATTERY") then 0
  else if pyContains s (str "OL") || pyContains s (str "ONLINE") then 1
  else -1

/-- `parse_charging_flag` (lines 90-99): 1 charging, 0 discharging, else -1. -/
def parse_charging_flag (raw : Str) : Int :=
  let s := pyUpper raw
  if pyContains s (str "CHRG") then 1
  else if pyContains s (str "DISCHRG") then 0
  else -1

/-- The token set dropped by the replace-battery filter. -/
def rbDropSet : List Str :=
  [str "RB", str "REPLACE", str "REPLACEBATTERY", str "BATTREPLACE"]

/-- `_filter_rb_tokens` (lines 130-136): remove RB/REPLACE tokens from a
`ups.status` string. -/
def filter_rb_tokens (status_str : Str) : Str :=
  let tokens := pySplit status_str
  pyJoin (str " ")
    (tokens.filter (fun t => !(rbDropSet.contains (pyUpper t))))

/-- Read an optional leading sign, returning the sign and the rest. -/
def readSign : Str → Int × Str
  | '-' :: rest => (-1, rest)
  | '+' :: rest => (1, rest)
  | s => (1, s)

/-- Numeric value of a digit string. -/
def digitsVal (ds : Str) : Nat :=
  ds.foldl (fun a c => a * 10 + (c.toNat - 48)) 0

/-- Models the string parsing of Python's `float` builtin on finite decimal
and scientific literals (optional sign, integer and/or fractional digits,
optional exponent).  The float value is modeled exactly as a rational.
The `inf`/`nan` spellings and digit underscores are not modeled. -/
def pyFloat? (s0 : Str) : Option ℚ :=
  let s := pyStrip s0
  let p := readSign s
  let ip := p.2.takeWhile Char.isDigit
  let r1 := p.2.dropWhile Char.isDigit
  let q := match r1 with
    | '.' :: rest => (rest.takeWhile Char.isDigit, rest.dropWhile Char.isDigit)
    | _ => ([], r1)
  if ip = [] ∧ q.1 = [] then none
  else
    let mant : ℚ := (digitsVal ip : ℚ) + (digitsVal q.1 : ℚ) / ((10 : ℚ) ^ q.1.length)
    match q.2 with
    | [] => some (p.1 * mant)
    | c :: rest =>
      if c = 'e' ∨ c = 'E' then
        let e := readSign rest
        let ed := e.2.takeWhile Char.isDigit
        let r4 := e.2.dropWhile Char.isDigit
        if ed = [] ∨ r4 ≠ [] then none
        else some (p.1 * mant * (10 : ℚ) ^ (e.1 * (digitsVal ed : Int)))
      else none

/-- Models the string parsing of Python's `int` builtin (base 10): optional
sign and digits.  Digit underscores are not modeled. -/
def pyInt? (s0 : Str) : Option Int :=
  let s := pyStrip s0
  let p := readSign s
  let ds := p.2.takeWhile Char.isDigit
  let r := p.2.dropWhile Char.isDigit
  if ds = [] ∨ r ≠ [] then none else some (p.1 * (digitsVal ds : Int))

/-- Truncation toward zero, the behavior of Python's `int` applied to a
finite float. -/
def truncQ (q : ℚ) : Int := if q < 0 then -(Int.floor (-q)) else Int.floor q

/-- `to_float` (lines 101-114): parse an optional raw value as a float,
retrying with comma-as-decimal-separator and the first whitespace token. -/
def to_float : Option Str → Option ℚ
  | none => none
  | some v =>
    let txt := pyStrip v
    if txt = [] then none
    else
      match pyFloat? txt with
      | some x => some x
      | none =>
        match pySplit (pyReplaceChar txt ',' '.') with
        | [] => none
        | t :: _ => pyFloat? t

/-- `to_int` (lines 116-128): parse an optional raw value as an integer via
`int(float(txt))`, retrying with `int` of the first whitespace token. -/
def to_int : Option Str → Option Int
  | none => none
  | some v =>
    let txt := pyStrip v
    if txt = [] then none
    else
      match pyFloat? txt with
      | some x => some (truncQ x)
      | none =>
        match pySplit txt with
        | [] => none
        | t :: _ => pyInt? t

/-- `UPSUDPBridge._selftest_active` (lines 201-209): detect a running
self-test from typical phrases in `ups.test.result`. -/
def selftest_active (data : List (Str × Str)) : Bool :=
  let txt := pyLower (pyStrip ((dictGet data (str "ups.test.result")).getD []))
  [str "in progress", str "progress", str "testing",
   str "self-test in progress", str "selftest in progress"].any
    (fun k => pyContains txt k)

/-- A JSON-serializable payload value: Python ints, floats (exact rationals)
and strings. -/
inductive JVal where
  | jint : Int → JVal
  | jrat : ℚ → JVal
  | jstr : Str → JVal
deriving DecidableEq

/-- An outbound record: keys in insertion order with their values. -/
abbrev Payload := List (String × JVal)

/-- Key presence in an outbound record. -/
def hasKey (p : Payload) (k : String) : Bool := p.any (fun e => e.1 == k)

/-- Key lookup in an outbound record. -/
def lookupKey (p : Payload) (k : String) : Option JVal :=
  (p.find? (fun e => e.1 == k)).map (fun e => e.2)

/-- `BACKOFF_ERROR_SEC` (line 43): fixed backoff on communication errors. -/
def BACKOFF_ERROR_SEC : Nat := 10

/-- The mutable state of `UPSUDPBridge` relevant to the poll loop
(lines 174-180). -/
structure BridgeState where
  running : Bool
  last_known_status_num : Nat
  last_known_status_text : Str
  dead_sent : Bool
  rb_count : Nat
  rb_threshold : Nat
  rb_ignore_during_selftest : Bool
  intervall_ol : Int
deriving DecidableEq

/-- The bridge state right after `__init__` with the default configuration. -/
def initState : BridgeState :=
  { running := true
    last_known_status_num := 9
    last_known_status_text := str "unknown"
    dead_sent := false
    rb_count := 0
    rb_threshold := 12
    rb_ignore_during_selftest := true
    intervall_ol := 10 }

/-- The dead record built by `_send_dead_packet` (lines 221-229). -/
def dead_packet (st : BridgeState) (ts : Int) (host : Str) : Payload :=
  [("source", .jstr (str "ups")),
   ("timestamp", .jint ts),
   ("host", .jstr host),
   ("alive", .jint 0),
   ("ups_status", .jint st.last_known_status_num),
   ("ups_on_line", .jint (parse_ups_on_line st.last_known_status_text)),
   ("status_raw", .jstr (pyStrip (pyLower st.last_known_status_text)))]

/-- `UPSUDPBridge._send_dead_packet` (lines 217-240): send the dead record
once; `sendOk` models whether the UDP send itself succeeds (a failed send
is swallowed and still marks the record as sent).  Returns the new state
and the list of datagrams actually transmitted. -/
def send_dead_packet (st : BridgeState) (sendOk : Bool) (ts : Int)
    (host : Str) : BridgeState × List Payload :=
  if st.dead_sent then (st, [])
  else ({ st with dead_sent := true },
        if sendOk then [dead_packet st ts host] else [])

/-- The record sent on a NUT communication error (lines 299-308). -/
def error_packet (e : Str) (ts : Int) (host : Str) : Payload :=
  [("source", .jstr (str "ups")),
   ("timestamp", .jint ts),
   ("host", .jstr host),
   ("alive", .jint 0),
   ("ups_status", .jint 9),
   ("ups_on_line", .jint (-1)),
   ("status_raw", .jstr (str "unknown")),
   ("error", .jstr e)]

/-- Optional numeric enrichment entry parsed with `to_float`. -/
def optFloat (data : List (Str × Str)) (key : Str) (out : String) : Payload :=
  match to_float (dictGet data key) with
  | some x => [(out, .jrat x)]
  | none => []

/-- Optional text enrichment entry, included only when present and
non-empty (Python truthiness). -/
def optStr (data : List (Str × Str)) (key : Str) (out : String) : Payload :=
  match dictGet data key with
  | some v => if v = [] then [] else [(out, .jstr v)]
  | none => []

/-- The `battery.runtime` block (lines 361-366): the raw seconds plus the
three derived fields. -/
def runtimeFields (data : List (Str × Str)) : Payload :=
  match to_int (dictGet data (str "battery.runtime")) with
  | some rt =>
    [("runtime_total_sec", .jint rt),
     ("runtime_total_min", .jint (Int.ceil ((rt : ℚ) / 60))),
     ("runtime_min", .jint (Int.fdiv rt 60)),
     ("runtime_sec", .jint (Int.emod rt 60))]
  | none => []

/-- The result of one successful poll cycle. -/
structure CycleResult where
  state : BridgeState
  eff_status : Str
  payload : Payload
  sleep_s : Int
deriving DecidableEq

/-- The raw replace-battery trigger detection of a cycle (line 317). -/
def rawRbDetect (data : List (Str × Str)) : Bool :=
  let up_upper := pyUpper ((dictGet data (str "ups.status")).getD [])
  pyContains up_upper (str "RB") || pyContains up_upper (str "REPLACE")

/-- The alive=1 record assembled on a successful cycle (lines 344-409)
from the effective status string, its classification, the charging flag
and the raw sample. -/
def ok_payload (eff : Str) (status_num : Nat) (chg : Int)
    (data : List (Str × Str)) (ts : Int) (host : Str) : Payload :=
  [("source", .jstr (str "ups")),
   ("timestamp", .jint ts),
   ("host", .jstr host),
   ("alive", .jint 1),
   ("ups_status", .jint status_num),
   ("ups_on_line", .jint (parse_ups_on_line eff)),
   ("status_raw", .jstr (pyStrip (pyLower eff)))]
  ++ (if chg ≠ -1 then [("battery_charging", .jint chg)] else [])
  ++ optFloat data (str "battery.charge") "battery_percent"
  ++ runtimeFields data
  ++ optFloat data (str "ups.load") "load_percent"
  ++ optFloat data (str "input.voltage") "input_voltage"
  ++ optFloat data (str "battery.voltage") "battery_voltage"
  ++ optStr data (str "input.transfer.reason") "last_transfer_reason"
  ++ optStr data (str "ups.test.result") "ups_test_result"
  ++ optStr data (str "device.model") "device_model"
  ++ optStr data (str "device.serial") "device_serial"
  ++ optFloat data (str "input.voltage.nominal") "input_voltage_nominal"
  ++ optFloat data (str "battery.voltage.nominal") "battery_voltage_nominal"
  ++ optFloat data (str "ups.realpower.nominal") "realpower_nominal"
  ++ optStr data (str "driver.version") "driver_version"

/-- One successful iteration of `UPSUDPBridge.run` (lines 312-419):
debounce bookkeeping, classification on the effective status string,
last-known-state update, record assembly and sleep selection. -/
def run_cycle_ok (st : BridgeState) (data : List (Str × Str)) (ts : Int)
    (host : Str) : CycleResult :=
  let status_str_raw := (dictGet data (str "ups.status")).getD []
  let raw_rb := rawRbDetect data
  let st_active := selftest_active data
  let rb_count' :=
    if raw_rb && !(st.rb_ignore_during_selftest && st_active) then
      st.rb_count + 1
    else 0
  let rb_allowed := raw_rb && decide (rb_count' ≥ st.rb_threshold)
      && !(st.rb_ignore_during_selftest && st_active)
  let eff := if rb_allowed then status_str_raw
             else filter_rb_tokens status_str_raw
  let m := map_status eff
  let chg := parse_charging_flag eff
  let payload : Payload := ok_payload eff m.1 chg data ts host
  let st' : BridgeState :=
    { st with rb_count := rb_count'
              last_known_status_num := m.1
              last_known_status_text := m.2 }
  { state := st'
    eff_status := eff
    payload := payload
    sleep_s := if m.1 = 1 then max 1 st.intervall_ol else 5 }

/-- One iteration of `UPSUDPBridge.run`: a failed fetch takes the error
path (alive=0 record, fixed backoff, state untouched), a successful fetch
runs the normal cycle. -/
def run_cycle (st : BridgeState) (fetch : Option (List (Str × Str)))
    (e : Str) (ts : Int) (host : Str) : BridgeState × Payload × Int :=
  match fetch with
  | none => (st, error_packet e ts host, (BACKOFF_ERROR_SEC : Int))
  | some data =>
    let r := run_cycle_ok st data ts host
    (r.state, r.payload, r.sleep_s)

/-- Iterate successful cycles over a list of samples (state evolution
only; timestamps and host do not influence the state). -/
def run_cycles (st : BridgeState) : List (List (Str × Str)) → BridgeState
  | [] => st
  | d :: ds => run_cycles (run_cycle_ok st d 0 []).state ds

/-- The effective status string of each cycle in a run of successful
cycles. -/
def cycle_effs (st : BridgeState) : List (List (Str × Str)) → List Str
  | [] => []
  | d :: ds =>
    (run_cycle_ok st d 0 []).eff_status
      :: cycle_effs (run_cycle_ok st d 0 []).state ds

/-- The space-free indicator substrings of the non-replace-battery
severity families of `map_status`. -/
def lowFamilyNeedles : List Str :=
  [str "FSD", str "OVER", str "LB", str "LOW", str "OB", str "ONBATT",
   str "OL", str "ONLINE"]

/-- Ordered severity families, written directly from the specification:
a list of (code, label, predicate) entries in strictly descending severity
order, scanned top-down with the first match winning. -/
def severityFamilies : List (Nat × Str × (Str → Bool)) :=
  [(6, str "shutdown_imminent", fun s => pyContains s (str "FSD")),
   (5, str "overload", fun s => pyContains s (str "OVER")),
   (4, str "replace_battery", fun s =>
      pyContains s (str "RB") || pyContains s (str "REPLACE")),
   (3, str "low_battery", fun s =>
      pyContains s (str "LB") || pyContains s (str "LOW")),
   (2, str "on_battery", fun s =>
      pyContains s (str "OB") || pyContains s (str "ONBATT")
        || pyContains s (str "ON BATTERY")),
   (1, str "online", fun s =>
      pyContains s (str "OL") || pyContains s (str "ONLINE"))]

/-- Specification-side classifier: normalize, return the first matching
family in descending severity order, default Unknown for empty or
unrecognized input. -/
def statusSpec (raw : Str) : Nat × Str :=
  let s := pyUpper (pyStrip raw)
  if s = [] then (9, str "unknown")
  else
    match severityFamilies.find? (fun f => f.2.2 s) with
    | some f => (f.1, f.2.1)
    | none => (9, str "unknown")

/-- One successful sample with the replace-battery trigger present. -/
def sampleRB : List (Str × Str) := [(str "ups.status", str "OL RB")]

/-- One successful sample without the trigger. -/
def sampleOL : List (Str × Str) := [(str "ups.status", str "OL")]

example : map_status (str "OL CHRG") = (1, str "online") := by decide
example : map_status (str "fsd ol") = (6, str "shutdown_imminent") := by decide
example : map_status (str "") = (9, str "unknown") := by decide
example : parse_ups_on_line (str "OB OL") = 0 := by decide
example : parse_charging_flag (str "DISCHRG") = 1 := by decide
example : filter_rb_tokens (str "OL RB") = str "OL" := by decide
example : filter_rb_tokens (str "OL VERB") = str "OL VERB" := by decide
example : pySplit (str "  a  bc ") = [str "a", str "bc"] := by decide
example : to_float (some (str "12,5 V")) = some (25/2 : ℚ) := by
  with_unfolding_all rfl
example : to_float (some (str "90")) = some (90 : ℚ) := by
  with_unfolding_all rfl
example : to_int (some (str "125,5")) = none := by with_unfolding_all rfl
example : to_int (some (str "125 sec")) = some 125 := by
  with_unfolding_all rfl
example : to_int (some (str "12.7")) = some 12 := by with_unfolding_all rfl
example : to_float (some (str "abc")) = none := by with_unfolding_all rfl
example : selftest_active [(str "ups.test.result", str "Test in progress")]
    = true := by decide
example :
    cycle_effs { initState with rb_threshold := 3 }
      [[(str "ups.status", str "OL RB")], [(str "ups.status", str "OL RB")],
       [(str "ups.status", str "OL RB")]]
    = [str "OL", str "OL", str "OL RB"] := by with_unfolding_all rfl

/-! ### String-model lemmas -/

theorem pyContains_iff {s n : Str} : pyContains s n = true ↔ n <:+: s := by
  simp [pyContains]

theorem pyStrip_isInfix (s : Str) : pyStrip s <:+: s := by
  have h1 := List.rdropWhile_prefix Char.isWhitespace
    (List.dropWhile Char.isWhitespace s)
  have h2 : List.dropWhile Char.isWhitespace s <:+ s :=
    List.dropWhile_suffix Char.isWhitespace
  exact h1.isInfix.trans h2.isInfix

theorem prefix_append_sep {n a b : Str} (hsp : ' ' ∉ n)
    (h : n <+: a ++ ' ' :: b) : n <+: a := by
  induction a generalizing n with
  | nil =>
    cases n with
    | nil => exact List.nil_prefix
    | cons c n' =>
      rw [List.nil_append] at h
      rcases List.cons_prefix_cons.mp h with ⟨rfl, -⟩
      exact absurd (List.mem_cons_self _ _) hsp
  | cons x a' ih =>
    cases n with
    | nil => exact List.nil_prefix
    | cons c n' =>
      rw [List.cons_append] at h
      rcases List.cons_prefix_cons.mp h with ⟨rfl, h2⟩
      have hsp' : ' ' ∉ n' := fun hm => hsp (List.mem_cons_of_mem _ hm)
      exact List.cons_prefix_cons.mpr ⟨rfl, ih hsp' h2⟩

theorem infix_append_sep {n a b : Str} (hsp : ' ' ∉ n)
    (h : n <:+: a ++ ' ' :: b) : n <:+: a ∨ n <:+: b := by
  induction a generalizing n with
  | nil =>
    rw [List.nil_append] at h
    rcases List.infix_cons_iff.mp h with hpre | hinf
    · cases n with
      | nil => exact Or.inl List.nil_infix
      | cons c n' =>
        rcases List.cons_prefix_cons.mp hpre with ⟨rfl, -⟩
        exact absurd (List.mem_cons_self _ _) hsp
    · exact Or.inr hinf
  | cons x a' ih =>
    rw [List.cons_append] at h
    rcases List.infix_cons_iff.mp h with hpre | hinf
    · have hpre' : n <+: (x :: a') ++ ' ' :: b := by simpa using hpre
      have hp := prefix_append_sep hsp hpre'
      exact Or.inl hp.isInfix
    · rcases ih hsp hinf with hl | hr
      · exact Or.inl (List.infix_cons hl)
      · exact Or.inr hr

theorem infix_pyJoin_tokens {n : Str} (hn : n ≠ []) (hsp : ' ' ∉ n) :
    ∀ ts : List Str, n <:+: pyJoin (str " ") ts → ∃ t ∈ ts, n <:+: t := by
  intro ts
  induction ts with
  | nil =>
    intro h
    rw [show pyJoin (str " ") [] = [] from rfl] at h
    exact absurd (List.infix_nil.mp h) hn
  | cons t us ih =>
    intro h
    cases us with
    | nil => exact ⟨t, List.mem_cons_self _ _, h⟩
    | cons u vs =>
      have hshape : pyJoin (str " ") (t :: u :: vs)
          = t ++ ' ' :: pyJoin (str " ") (u :: vs) := by
        show t ++ [' '] ++ pyJoin (str " ") (u :: vs) = _
        rw [List.append_assoc]
        rfl
      rw [hshape] at h
      rcases infix_append_sep hsp h with hl | hr
      · exact ⟨t, List.mem_cons_self _ _, hl⟩
      · rcases ih hr with ⟨t', ht', hinf⟩
        exact ⟨t', List.mem_cons_of_mem _ ht', hinf⟩

theorem mem_isInfix_pyJoin {t : Str} {ts : List Str} (ht : t ∈ ts) :
    t <:+: pyJoin (str " ") ts := by
  induction ts with
  | nil => cases ht
  | cons u us ih =>
    rcases List.mem_cons.mp ht with rfl | hm
    · cases us with
      | nil => exact List.infix_refl _
      | cons v vs =>
        have hp : t <+: t ++ ([' '] ++ pyJoin (str " ") (v :: vs)) :=
          List.prefix_append t _
        have hshape : pyJoin (str " ") (t :: v :: vs)
            = t ++ ([' '] ++ pyJoin (str " ") (v :: vs)) := by
          show t ++ [' '] ++ pyJoin (str " ") (v :: vs) = _
          rw [List.append_assoc]
        rw [hshape]
        exact hp.isInfix
    · cases us with
      | nil => cases hm
      | cons v vs =>
        have hsuf : pyJoin (str " ") (v :: vs)
            <:+ (u ++ [' ']) ++ pyJoin (str " ") (v :: vs) :=
          List.suffix_append _ _
        have hshape : pyJoin (str " ") (u :: v :: vs)
            = (u ++ [' ']) ++ pyJoin (str " ") (v :: vs) := rfl
        rw [hshape]
        exact (ih hm).trans hsuf.isInfix

theorem splitOnP_sep_free {p : Char → Bool} :
    ∀ s : Str, ∀ t ∈ s.splitOnP p, ∀ c ∈ t, ¬ (p c = true) := by
  intro s
  induction s with
  | nil =>
    intro t ht c hc
    rw [List.splitOnP_nil] at ht
    rcases List.mem_singleton.mp ht with rfl
    cases hc
  | cons x xs ih =>
    intro t ht c hc
    rw [List.splitOnP_cons] at ht
    by_cases hx : p x = true
    · rw [if_pos hx] at ht
      rcases List.mem_cons.mp ht with rfl | hm
      · cases hc
      · exact ih t hm c hc
    · rw [if_neg hx] at ht
      rcases hsp : xs.splitOnP p with - | ⟨hd, tl⟩
      · exact absurd hsp (List.splitOnP_ne_nil _ _)
      · rw [hsp] at ht
        rcases List.mem_cons.mp ht with rfl | hm
        · rcases List.mem_cons.mp hc with rfl | hc'
          · exact hx
          · exact ih hd (hsp ▸ List.mem_cons_self _ _) c hc'
        · exact ih t (hsp ▸ List.mem_cons_of_mem _ hm) c hc

theorem pySplit_tokens {s t : Str} (ht : t ∈ pySplit s) :
    t ≠ [] ∧ ∀ c ∈ t, ¬ (c.isWhitespace = true) := by
  have hm := List.mem_filter.mp ht
  constructor
  · intro hnil
    rw [hnil] at hm
    simp at hm
  · exact splitOnP_sep_free s t hm.1

theorem pyStrip_eq_self {s : Str} (h : ∀ c ∈ s, ¬ (c.isWhitespace = true)) :
    pyStrip s = s := by
  unfold pyStrip
  have h1 : List.dropWhile Char.isWhitespace s = s :=
    List.dropWhile_eq_self_iff.mpr (fun hl => h _ (List.get_mem s 0 hl))
  rw [h1]
  exact List.rdropWhile_eq_self_iff.mpr (fun hl => h _ (List.getLast_mem hl))

theorem pyJoin_ne_nil {t : Str} (ts : List Str) (ht : t ≠ []) :
    pyJoin (str " ") (t :: ts) ≠ [] := by
  cases ts with
  | nil => exact ht
  | cons u us =>
    show t ++ [' '] ++ pyJoin (str " ") (u :: us) ≠ []
    simp


theorem rdropWhile_of_pyStrip_eq {J : Str} (h : pyStrip J = J) :
    List.rdropWhile Char.isWhitespace J = J := by
  have hsuf : List.dropWhile Char.isWhitespace J <:+ J :=
    List.dropWhile_suffix Char.isWhitespace
  have hpre := List.rdropWhile_prefix Char.isWhitespace
    (List.dropWhile Char.isWhitespace J)
  have hlen1 : (List.dropWhile Char.isWhitespace J).length ≤ J.length :=
    hsuf.length_le
  have hlen2 : J.length ≤ (List.dropWhile Char.isWhitespace J).length := by
    have := hpre.length_le
    rw [show List.rdropWhile Char.isWhitespace
          (List.dropWhile Char.isWhitespace J) = pyStrip J from rfl, h] at this
    exact this
  have hdw : List.dropWhile Char.isWhitespace J = J :=
    hsuf.eq_of_length (Nat.le_antisymm hlen1 hlen2)
  calc List.rdropWhile Char.isWhitespace J
      = pyStrip J := by rw [pyStrip, hdw]
    _ = J := h

theorem pyStrip_pyJoin {ts : List Str} (hne : ts ≠ [])
    (htok : ∀ t ∈ ts, t ≠ [] ∧ ∀ c ∈ t, ¬ (c.isWhitespace = true)) :
    pyStrip (pyJoin (str " ") ts) = pyJoin (str " ") ts := by
  induction ts with
  | nil => cases hne rfl
  | cons t us ih =>
    cases us with
    | nil =>
      exact pyStrip_eq_self (htok t (List.mem_cons_self _ _)).2
    | cons u vs =>
      have htok' : ∀ x ∈ u :: vs, x ≠ [] ∧ ∀ c ∈ x, ¬ (c.isWhitespace = true) :=
        fun x hx => htok x (List.mem_cons_of_mem _ hx)
      have ihJ := ih (List.cons_ne_nil u vs) htok'
      have hJne : pyJoin (str " ") (u :: vs) ≠ [] :=
        pyJoin_ne_nil vs (htok' u (List.mem_cons_self _ _)).1
      have htne := (htok t (List.mem_cons_self _ _)).1
      have htc := (htok t (List.mem_cons_self _ _)).2
      have hrdJ := rdropWhile_of_pyStrip_eq ihJ
      have hlast : ¬ ((pyJoin (str " ") (u :: vs)).getLast hJne).isWhitespace
          = true :=
        List.rdropWhile_eq_self_iff.mp hrdJ hJne
      have hshape : pyJoin (str " ") (t :: u :: vs)
          = (t ++ [' ']) ++ pyJoin (str " ") (u :: vs) := rfl
      rw [hshape]
      -- left side: first character of t is not whitespace
      cases t with
      | nil => cases htne rfl
      | cons c t' =>
        have hc : ¬ (c.isWhitespace = true) := htc c (List.mem_cons_self _ _)
        have hdw : List.dropWhile Char.isWhitespace
            ((c :: t' ++ [' ']) ++ pyJoin (str " ") (u :: vs))
            = (c :: t' ++ [' ']) ++ pyJoin (str " ") (u :: vs) := by
          rw [show (c :: t' ++ [' ']) ++ pyJoin (str " ") (u :: vs)
              = c :: (t' ++ [' '] ++ pyJoin (str " ") (u :: vs)) by simp,
            List.dropWhile_cons, if_neg hc]
        have happne : (c :: t' ++ [' ']) ++ pyJoin (str " ") (u :: vs) ≠ [] := by
          simp
        have hlast2 : ¬ (((c :: t' ++ [' ']) ++ pyJoin (str " ") (u :: vs)).getLast
            happne).isWhitespace = true := by
          rw [List.getLast_append_of_ne_nil hJne]
          exact hlast
        rw [pyStrip, hdw]
        exact List.rdropWhile_eq_self_iff.mpr (fun hl => hlast2)

theorem toUpper_of_isWhitespace {c : Char} (h : c.isWhitespace = true) :
    c.toUpper = c := by
  simp [Char.isWhitespace] at h
  rcases h with ((rfl | rfl) | rfl) | rfl <;> decide

theorem exists_of_infix_map {f : Char → Char} {n s : Str}
    (h : n <:+: s.map f) : ∃ m, m <:+: s ∧ m.map f = n := by
  rcases h with ⟨a, b, hab⟩
  have hs : s.map f = a ++ (n ++ b) := by rw [← hab, List.append_assoc]
  rcases List.map_eq_append_iff.mp hs with ⟨l₁, l₂, rfl, -, h₂⟩
  rcases List.map_eq_append_iff.mp h₂ with ⟨m, l₃, rfl, hm, -⟩
  exact ⟨m, ⟨l₁, l₃, by rw [List.append_assoc]⟩, hm⟩

theorem infix_dropWhile_of_no_ws {m l : Str} (hm : m ≠ [])
    (hc : ∀ c ∈ m, ¬ (c.isWhitespace = true)) (h : m <:+: l) :
    m <:+: List.dropWhile Char.isWhitespace l := by
  induction l with
  | nil => exact absurd (List.infix_nil.mp h) hm
  | cons x xs ih =>
    rw [List.dropWhile_cons]
    by_cases hx : x.isWhitespace = true
    · rw [if_pos hx]
      rcases List.infix_cons_iff.mp h with hpre | hinf
      · cases m with
        | nil => cases hm rfl
        | cons c m' =>
          rcases List.cons_prefix_cons.mp hpre with ⟨rfl, -⟩
          exact absurd hx (hc _ (List.mem_cons_self _ _))
      · exact ih hinf
    · rw [if_neg hx]
      exact h

theorem infix_pyStrip_of_no_ws {m l : Str} (hm : m ≠ [])
    (hc : ∀ c ∈ m, ¬ (c.isWhitespace = true)) (h : m <:+: l) :
    m <:+: pyStrip l := by
  have h1 := infix_dropWhile_of_no_ws hm hc h
  have h2 : m.reverse <:+: (List.dropWhile Char.isWhitespace l).reverse :=
    List.reverse_infix.mpr h1
  have hmr : m.reverse ≠ [] := by simpa using hm
  have hcr : ∀ c ∈ m.reverse, ¬ (c.isWhitespace = true) :=
    fun c hcm => hc c (List.mem_reverse.mp hcm)
  have h3 := infix_dropWhile_of_no_ws hmr hcr h2
  have h4 : (m.reverse).reverse <:+:
      (List.dropWhile Char.isWhitespace
        ((List.dropWhile Char.isWhitespace l).reverse)).reverse :=
    List.reverse_infix.mpr h3
  rw [List.reverse_reverse] at h4
  exact h4

theorem infix_pyUpper_pyStrip {n s : Str} (hne : n ≠ [])
    (hnw : ∀ c ∈ n, ¬ (c.isWhitespace = true)) (h : n <:+: pyUpper s) :
    n <:+: pyUpper (pyStrip s) := by
  rcases exists_of_infix_map h with ⟨m, hms, hmap⟩
  have hmne : m ≠ [] := by
    intro hnil
    rw [hnil] at hmap
    exact hne hmap.symm
  have hmc : ∀ c ∈ m, ¬ (c.isWhitespace = true) := by
    intro c hcm hws
    have hu : c.toUpper ∈ n := by
      rw [← hmap]
      exact List.mem_map_of_mem _ hcm
    rw [toUpper_of_isWhitespace hws] at hu
    exact hnw c hu hws
  have h2 := infix_pyStrip_of_no_ws hmne hmc hms
  have h3 := h2.map Char.toUpper
  rw [hmap] at h3
  exact h3

theorem pyUpper_pyJoin (ts : List Str) :
    pyUpper (pyJoin (str " ") ts) = pyJoin (str " ") (ts.map pyUpper) := by
  induction ts with
  | nil => rfl
  | cons t us ih =>
    cases us with
    | nil => rfl
    | cons u vs =>
      show List.map Char.toUpper (t ++ [' '] ++ pyJoin (str " ") (u :: vs)) = _
      rw [List.map_append, List.map_append]
      have hsep : List.map Char.toUpper [' '] = [' '] := rfl
      rw [hsep]
      show pyUpper t ++ [' '] ++ pyUpper (pyJoin (str " ") (u :: vs)) = _
      rw [ih]
      rfl

theorem keptTokens_sub {raw : Str} {t : Str}
    (ht : t ∈ (pySplit raw).filter (fun x => !(rbDropSet.contains (pyUpper x)))) :
    t ∈ pySplit raw ∧ pyUpper t ∉ rbDropSet := by
  have h := List.mem_filter.mp ht
  refine ⟨h.1, ?_⟩
  intro hmem
  have : rbDropSet.contains (pyUpper t) = true := List.elem_iff.mpr hmem
  rw [this] at h
  simp at h

theorem no_infix_upper_strip_filter {raw n : Str} (hn : n ≠ [])
    (hsp : ' ' ∉ n)
    (hall : ∀ t ∈ pySplit raw, n <:+: pyUpper t → pyUpper t ∈ rbDropSet) :
    ¬ (n <:+: pyUpper (pyStrip (filter_rb_tokens raw))) := by
  intro h
  have hstrip := pyStrip_isInfix (filter_rb_tokens raw)
  have hmono := hstrip.map Char.toUpper
  have h2 : n <:+: pyUpper (filter_rb_tokens raw) := h.trans hmono
  rw [show filter_rb_tokens raw = pyJoin (str " ")
      ((pySplit raw).filter (fun x => !(rbDropSet.contains (pyUpper x))))
      from rfl, pyUpper_pyJoin] at h2
  rcases infix_pyJoin_tokens hn hsp _ h2 with ⟨tu, htu, hinf⟩
  rcases List.mem_map.mp htu with ⟨t, htk, rfl⟩
  rcases keptTokens_sub htk with ⟨hts, hnd⟩
  exact hnd (hall t hts hinf)

theorem infix_upper_strip_filter_of_kept {raw t n : Str}
    (htk : t ∈ pySplit raw) (hnd : pyUpper t ∉ rbDropSet)
    (hinf : n <:+: pyUpper t) :
    n <:+: pyUpper (pyStrip (filter_rb_tokens raw)) := by
  have hcond : (fun x => !(rbDropSet.contains (pyUpper x))) t = true := by
    have : rbDropSet.contains (pyUpper t) = false := by
      rcases hb : rbDropSet.contains (pyUpper t) with - | -
      · rfl
      · exact absurd (List.elem_iff.mp hb) hnd
    show (!(rbDropSet.contains (pyUpper t))) = true
    rw [this]
    rfl
  have hkept : t ∈ (pySplit raw).filter
      (fun x => !(rbDropSet.contains (pyUpper x))) :=
    List.mem_filter.mpr ⟨htk, hcond⟩
  have htoks : ∀ x ∈ (pySplit raw).filter
      (fun y => !(rbDropSet.contains (pyUpper y))),
      x ≠ [] ∧ ∀ c ∈ x, ¬ (c.isWhitespace = true) := by
    intro x hx
    exact pySplit_tokens (List.mem_filter.mp hx).1
  have hne : (pySplit raw).filter (fun x => !(rbDropSet.contains (pyUpper x)))
      ≠ [] := List.ne_nil_of_mem hkept
  have hstrip : pyStrip (filter_rb_tokens raw) = filter_rb_tokens raw := by
    rw [show filter_rb_tokens raw = pyJoin (str " ")
        ((pySplit raw).filter (fun x => !(rbDropSet.contains (pyUpper x))))
        from rfl]
    exact pyStrip_pyJoin hne htoks
  rw [hstrip, show filter_rb_tokens raw = pyJoin (str " ")
      ((pySplit raw).filter (fun x => !(rbDropSet.contains (pyUpper x))))
      from rfl, pyUpper_pyJoin]
  have hmem : pyUpper t ∈ ((pySplit raw).filter
      (fun x => !(rbDropSet.contains (pyUpper x)))).map pyUpper :=
    List.mem_map_of_mem _ hkept
  have hj := mem_isInfix_pyJoin hmem
  exact hinf.trans hj

theorem map_status_fst_ne_four {raw : Str}
    (hRB : ¬ ((str "RB") <:+: pyUpper (pyStrip raw)))
    (hREP : ¬ ((str "REPLACE") <:+: pyUpper (pyStrip raw))) :
    (map_status raw).1 ≠ 4 := by
  simp only [map_status]
  split_ifs with h1 h2 h3 h4 h5 h6 h7 <;>
    simp_all [pyContains_iff]

theorem map_status_fst_ne_nine_of_needle {raw n : Str}
    (hmem : n ∈ lowFamilyNeedles)
    (h : n <:+: pyUpper (pyStrip raw)) :
    (map_status raw).1 ≠ 9 := by
  fin_cases hmem
  all_goals
    have hne : pyUpper (pyStrip raw) ≠ [] := by
      intro h0
      rw [h0] at h
      have h1 := List.infix_nil.mp h
      exact absurd h1 (by decide)
    simp only [map_status]
    split_ifs with h1 h2 h3 h4 h5 h6 h7 <;> simp_all [pyContains_iff]

theorem hasKey_append (p q : Payload) (k : String) :
    hasKey (p ++ q) k = (hasKey p k || hasKey q k) := by
  simp [hasKey]

theorem hasKey_optFloat (data : List (Str × Str)) (key : Str) (out k : String) :
    hasKey (optFloat data key out) k
      = ((out == k) && (to_float (dictGet data key)).isSome) := by
  unfold optFloat
  rcases h : to_float (dictGet data key) with - | x <;> simp [hasKey]

theorem hasKey_optStr (data : List (Str × Str)) (key : Str) (out k : String) :
    hasKey (optStr data key out) k
      = ((out == k) && !((dictGet data key).getD []).isEmpty) := by
  unfold optStr
  rcases h : dictGet data key with - | v
  · simp [hasKey]
  · rcases v with - | ⟨c, cs⟩ <;> simp [hasKey]

theorem hasKey_runtimeFields (data : List (Str × Str)) (k : String) :
    hasKey (runtimeFields data) k
      = ((("runtime_total_sec" == k) || ("runtime_total_min" == k)
          || ("runtime_min" == k) || ("runtime_sec" == k))
        && (to_int (dictGet data (str "battery.runtime"))).isSome) := by
  unfold runtimeFields
  rcases h : to_int (dictGet data (str "battery.runtime")) with - | rt <;>
    simp [hasKey, Bool.or_assoc]

/-! ### Claim theorems -/

/-- C1: the charging-flag classifier never returns Discharging (0): on the
concrete status "OL DISCHRG" (and on any string containing the discharging
indicator DISCHRG) it returns Charging (1), because CHRG is a substring of
DISCHRG and is tested first; the Discharging branch is unreachable, its
result on every input is 1 or -1 (Unset). -/
theorem c1_discharging_unreachable :
    parse_charging_flag (str "OL DISCHRG") = 1 ∧
    (∀ eff sn data ts host,
      hasKey (ok_payload eff sn (-1) data ts host) "battery_charging"
        = false) ∧
    ∀ s : Str, parse_charging_flag s = 1 ∨ parse_charging_flag s = -1 := by
  refine ⟨by decide, ?_, ?_⟩
  · intro eff sn data ts host
    unfold ok_payload
    simp only [hasKey_append, hasKey_optFloat, hasKey_optStr,
      hasKey_runtimeFields]
    simp [hasKey]
  intro s
  by_cases h : pyContains (pyUpper s) (str "CHRG") = true
  · left
    simp [parse_charging_flag, h]
  · right
    have hd : pyContains (pyUpper s) (str "DISCHRG") = false := by
      rcases hb : pyContains (pyUpper s) (str "DISCHRG") with - | -
      · rfl
      · have h1 := pyContains_iff.mp hb
        have h2 : (str "CHRG") <:+: (str "DISCHRG") := by decide
        exact absurd (pyContains_iff.mpr (h2.trans h1)) h
    simp [parse_charging_flag, h, hd, Bool.not_eq_true]

/-- C2 (amended): when every occurrence of the replace-battery trigger
substrings RB/REPLACE in the raw status lies in a whole whitespace-delimited
token of the drop set (RB, REPLACE, REPLACEBATTERY, BATTREPLACE, matched
case-insensitively), the filter applied while the debounce disallows the
flag removes exactly those tokens and keeps the remaining tokens joined by
single spaces; the classification of the filtered string is then never
ReplaceBattery (4), and if some kept token carries an indicator of another
family it is not Unknown (9) either, i.e. the next-lower applicable
severity results.  (A trigger substring inside a larger token is not
removed and can still classify as ReplaceBattery, and a status consisting
only of drop tokens filters to the empty string, which classifies
Unknown.) -/
theorem c2_rb_token_filtering (raw : Str)
    (hall : ∀ t ∈ pySplit raw,
      (pyContains (pyUpper t) (str "RB")
        || pyContains (pyUpper t) (str "REPLACE")) = true →
      pyUpper t ∈ rbDropSet) :
    filter_rb_tokens raw
      = pyJoin (str " ") ((pySplit raw).filter
          (fun t => !(rbDropSet.contains (pyUpper t)))) ∧
    (map_status (filter_rb_tokens raw)).1 ≠ 4 ∧
    (∀ t ∈ pySplit raw, pyUpper t ∉ rbDropSet →
      ∀ n ∈ lowFamilyNeedles, pyContains (pyUpper t) n = true →
      (map_status (filter_rb_tokens raw)).1 ≠ 9) := by
  refine ⟨rfl, ?_, ?_⟩
  · have hallRB : ∀ t ∈ pySplit raw,
        (str "RB") <:+: pyUpper t → pyUpper t ∈ rbDropSet := by
      intro t ht hi
      refine hall t ht ?_
      rw [Bool.or_eq_true]
      exact Or.inl (pyContains_iff.mpr hi)
    have hallREP : ∀ t ∈ pySplit raw,
        (str "REPLACE") <:+: pyUpper t → pyUpper t ∈ rbDropSet := by
      intro t ht hi
      refine hall t ht ?_
      rw [Bool.or_eq_true]
      exact Or.inr (pyContains_iff.mpr hi)
    have hRB := no_infix_upper_strip_filter (by decide) (by decide) hallRB
    have hREP := no_infix_upper_strip_filter (by decide) (by decide) hallREP
    exact map_status_fst_ne_four hRB hREP
  · intro t ht hnd n hn hc
    have hinf := infix_upper_strip_filter_of_kept ht hnd (pyContains_iff.mp hc)
    exact map_status_fst_ne_nine_of_needle hn hinf

/-- C2 (witness): on the status "OL RB" with the debounce not yet allowing
the flag, the filtered classification is neither ReplaceBattery nor
Unknown. -/
theorem c2_rb_token_filtering_witness :
    (map_status (filter_rb_tokens (str "OL RB"))).1 ≠ 4 ∧
    (map_status (filter_rb_tokens (str "OL RB"))).1 ≠ 9 := by
  have h := c2_rb_token_filtering (str "OL RB") (by decide)
  exact ⟨h.2.1,
    h.2.2 (str "OL") (by decide) (by decide) (str "OL") (by decide) (by decide)⟩

/-- C2 (counterexample): the claim as stated fails on the code in two ways.
On "OL VERB" the trigger substring RB is detected inside the larger token
VERB; the exact-token filter removes nothing and the classification of the
filtered string is still ReplaceBattery.  On the status "RB" the filter
removes the whole content and the classification is Unknown. -/
theorem c2_counterexample :
    rawRbDetect [(str "ups.status", str "OL VERB")] = true ∧
    filter_rb_tokens (str "OL VERB") = str "OL VERB" ∧
    map_status (filter_rb_tokens (str "OL VERB")) = (4, str "replace_battery") ∧
    (run_cycle_ok initState [(str "ups.status", str "OL VERB")] 0
      []).state.last_known_status_num = 4 ∧
    filter_rb_tokens (str "RB") = [] ∧
    map_status (filter_rb_tokens (str "RB")) = (9, str "unknown") :=
  ⟨by decide, by decide, by decide, by with_unfolding_all rfl,
   by decide, by decide⟩

/-- C7: `map_status` agrees everywhere with the first-match-wins severity
scan over the ordered family list (so every string yields the single
highest-severity matching family, and Unknown (9) for empty or unrecognized
input); in particular every string containing FSD in any letter case
classifies as ShutdownImminent (6). -/
theorem c7_status_severity (raw : Str) :
    map_status raw = statusSpec raw ∧
    (pyContains (pyUpper raw) (str "FSD") = true →
      map_status raw = (6, str "shutdown_imminent")) := by
  constructor
  · simp only [map_status, statusSpec, severityFamilies]
    split_ifs with h0 h1 h2 h3 h4 h5 h6 <;>
      simp_all [List.find?]
    all_goals first
      | (rcases h3 with h | h <;> simp_all [List.find?])
      | (rcases h4 with h | h <;> simp_all [List.find?])
      | (rcases h5 with (h | h) | h <;> simp_all [List.find?])
      | (rcases h6 with h | h <;> simp_all [List.find?])
  · intro hc
    have hinf := infix_pyUpper_pyStrip (by decide) (by decide)
      (pyContains_iff.mp hc)
    have hne : pyUpper (pyStrip raw) ≠ [] := by
      intro h0
      rw [h0] at hinf
      exact absurd (List.infix_nil.mp hinf) (by decide)
    simp only [map_status]
    rw [if_neg hne, if_pos (pyContains_iff.mpr hinf)]

/-- C7 (witness): a lower-case status with co-occurring lower-severity
tokens still classifies as ShutdownImminent. -/
theorem c7_status_severity_witness :
    map_status (str "ol lb fsd") = (6, str "shutdown_imminent") :=
  (c7_status_severity (str "ol lb fsd")).2 (by decide)

/-- C10: the on-mains classifier tests the on-battery family first, so a
status containing both an on-battery flag (OB or ONBATT) and an online flag
(OL or ONLINE) yields 0 (on battery), not 1. -/
theorem c10_on_battery_precedence (s : Str)
    (hob : pyContains (pyUpper s) (str "OB") = true
        ∨ pyContains (pyUpper s) (str "ONBATT") = true)
    (hol : pyContains (pyUpper s) (str "OL") = true
        ∨ pyContains (pyUpper s) (str "ONLINE") = true) :
    parse_ups_on_line s = 0 := by
  have hcond : (pyContains (pyUpper s) (str "OB")
      || pyContains (pyUpper s) (str "ONBATT")
      || pyContains (pyUpper s) (str "ON BATTERY")) = true := by
    rcases hob with h | h <;> simp [h]
  simp [parse_ups_on_line, hcond]

/-- C10 (witness): the status "OB OL" contains both families and yields 0. -/
theorem c10_on_battery_precedence_witness : parse_ups_on_line (str "OB OL") = 0 :=
  c10_on_battery_precedence (str "OB OL") (Or.inl (by decide))
    (Or.inl (by decide))

theorem run_cycle_ok_rb_count (st : BridgeState) (data : List (Str × Str))
    (ts : Int) (host : Str) :
    (run_cycle_ok st data ts host).state.rb_count
      = if rawRbDetect data
            && !(st.rb_ignore_during_selftest && selftest_active data)
        then st.rb_count + 1 else 0 := rfl

theorem run_cycle_ok_ignore (st : BridgeState) (data : List (Str × Str))
    (ts : Int) (host : Str) :
    (run_cycle_ok st data ts host).state.rb_ignore_during_selftest
      = st.rb_ignore_during_selftest := rfl

theorem run_cycle_ok_eff (st : BridgeState) (data : List (Str × Str))
    (ts : Int) (host : Str) :
    (run_cycle_ok st data ts host).eff_status
      = (if rawRbDetect data
            && decide ((if rawRbDetect data
                  && !(st.rb_ignore_during_selftest && selftest_active data)
                then st.rb_count + 1 else 0) ≥ st.rb_threshold)
            && !(st.rb_ignore_during_selftest && selftest_active data)
         then (dictGet data (str "ups.status")).getD []
         else filter_rb_tokens ((dictGet data (str "ups.status")).getD [])) :=
  rfl

/-- C3: the debounce counter increments by exactly one on a cycle whose raw
status holds the trigger without self-test suppression and resets to zero
on every other cycle; the raw status reaches the classifier unfiltered
exactly when the updated counter has reached the threshold and no
suppression applies, and is token-filtered otherwise.  Concretely at
threshold 3: with the trigger on cycles 1-3 the effective status is
filtered (OL) on cycles 1-2 and unfiltered (OL RB) from cycle 3 on; if the
trigger is absent on cycle 2, cycle 3 is filtered again. -/
theorem c3_debounce_counter :
    (∀ st data ts host,
      (run_cycle_ok st data ts host).state.rb_count
        = if rawRbDetect data
              && !(st.rb_ignore_during_selftest && selftest_active data)
          then st.rb_count + 1 else 0) ∧
    (∀ st data ts host,
      (run_cycle_ok st data ts host).eff_status
        = if rawRbDetect data
              && decide ((run_cycle_ok st data ts host).state.rb_count
                  ≥ st.rb_threshold)
              && !(st.rb_ignore_during_selftest && selftest_active data)
          then (dictGet data (str "ups.status")).getD []
          else filter_rb_tokens ((dictGet data (str "ups.status")).getD [])) ∧
    cycle_effs { initState with rb_threshold := 3 }
        [sampleRB, sampleRB, sampleRB, sampleRB]
      = [str "OL", str "OL", str "OL RB", str "OL RB"] ∧
    cycle_effs { initState with rb_threshold := 3 }
        [sampleRB, sampleOL, sampleRB]
      = [str "OL", str "OL", str "OL"] := by
  refine ⟨fun st data ts host => rfl, fun st data ts host => rfl,
    by with_unfolding_all rfl, by with_unfolding_all rfl⟩

/-- C4: with self-test suppression enabled and the self-test detected
active, a cycle resets the debounce counter to zero no matter whether the
trigger is present; consequently over any non-empty run of such cycles the
counter ends at zero, never incrementing. -/
theorem c4_selftest_suppression :
    (∀ st data ts host, st.rb_ignore_during_selftest = true →
      selftest_active data = true →
      (run_cycle_ok st data ts host).state.rb_count = 0) ∧
    (∀ st datas, st.rb_ignore_during_selftest = true →
      datas ≠ [] → (∀ d ∈ datas, selftest_active d = true) →
      (run_cycles st datas).rb_count = 0) := by
  have hone : ∀ (st : BridgeState) data (ts : Int) (host : Str),
      st.rb_ignore_during_selftest = true → selftest_active data = true →
      (run_cycle_ok st data ts host).state.rb_count = 0 := by
    intro st data ts host h1 h2
    rw [run_cycle_ok_rb_count, h1, h2]
    simp
  refine ⟨hone, ?_⟩
  intro st datas
  induction datas generalizing st with
  | nil =>
    intro _ hne _
    cases hne rfl
  | cons d ds ih =>
    intro hign _ hall
    show (run_cycles (run_cycle_ok st d 0 []).state ds).rb_count = 0
    cases ds with
    | nil =>
      show (run_cycle_ok st d 0 []).state.rb_count = 0
      exact hone st d 0 [] hign (hall d (List.mem_cons_self _ _))
    | cons e es =>
      refine ih _ ?_ (List.cons_ne_nil e es) ?_
      · rw [run_cycle_ok_ignore]
        exact hign
      · intro x hx
        exact hall x (List.mem_cons_of_mem _ hx)

/-- C4 (witness): two consecutive trigger-present cycles during an active
self-test leave the counter at zero. -/
theorem c4_selftest_suppression_witness :
    (run_cycles initState
      [[(str "ups.status", str "OL RB"),
        (str "ups.test.result", str "Test in progress")],
       [(str "ups.status", str "OL RB"),
        (str "ups.test.result", str "Test in progress")]]).rb_count = 0 :=
  c4_selftest_suppression.2 initState _ (by decide) (by decide) (by decide)

/-- C5 (amended): the dead record contains exactly the keys source,
timestamp, host, alive (0), the last-known condition code, the on-line
classifier applied to the last-known status text, and the lowercased,
stripped last-known status text.  On the label texts the classifier
produces, that on-line value is 1 for the label online and -1 for every
other label — in particular -1, not 0, when the last classified condition
was OnBattery (label on_battery). -/
theorem c5_dead_record_content (st : BridgeState) (ts : Int) (host : Str) :
    dead_packet st ts host
      = [("source", .jstr (str "ups")),
         ("timestamp", .jint ts),
         ("host", .jstr host),
         ("alive", .jint 0),
         ("ups_status", .jint st.last_known_status_num),
         ("ups_on_line", .jint (parse_ups_on_line st.last_known_status_text)),
         ("status_raw", .jstr (pyStrip (pyLower st.last_known_status_text)))] ∧
    parse_ups_on_line (str "online") = 1 ∧
    parse_ups_on_line (str "on_battery") = -1 ∧
    parse_ups_on_line (str "low_battery") = -1 ∧
    parse_ups_on_line (str "replace_battery") = -1 ∧
    parse_ups_on_line (str "overload") = -1 ∧
    parse_ups_on_line (str "shutdown_imminent") = -1 ∧
    parse_ups_on_line (str "unknown") = -1 :=
  ⟨rfl, by decide, by decide, by decide, by decide, by decide, by decide,
   by decide⟩

/-- C5 (counterexample): when the most recently classified condition is
OnBattery (code 2, label on_battery), the dead record carries on_mains -1,
not 0 as the claim states. -/
theorem c5_counterexample :
    lookupKey
      (dead_packet
        { initState with
            last_known_status_num := 2
            last_known_status_text := str "on_battery" } 0 [])
      "ups_on_line" = some (.jint (-1)) ∧
    (JVal.jint (-1)) ≠ (JVal.jint 0) :=
  ⟨by decide, by decide⟩

/-- C6: the dead-record path is idempotent: for every bridge state and any
outcome of the UDP send itself, two consecutive invocations transmit at
most one datagram in total, and the second invocation transmits none (the
internally tracked flag is set even when the first send attempt failed). -/
theorem c6_dead_packet_idempotent (st : BridgeState) (ok1 ok2 : Bool)
    (ts1 ts2 : Int) (h1 h2 : Str) :
    ((send_dead_packet st ok1 ts1 h1).2).length
      + ((send_dead_packet (send_dead_packet st ok1 ts1 h1).1
            ok2 ts2 h2).2).length ≤ 1 ∧
    (send_dead_packet (send_dead_packet st ok1 ts1 h1).1 ok2 ts2 h2).2
      = [] ∧
    (send_dead_packet st ok1 ts1 h1).1.dead_sent = true := by
  unfold send_dead_packet
  rcases hd : st.dead_sent with - | -
  · rcases ok1 with - | - <;> simp [hd]
  · simp [hd]

/-- C8: when the fetch of the raw sample fails, the loop iteration sends
exactly the alive=0 record with condition Unknown (9), on_mains -1 and the
error description, backs off the fixed 10 seconds, and leaves the whole
bridge state — in particular the last-known condition code and status
text — unchanged. -/
theorem c8_error_path (st : BridgeState) (e : Str) (ts : Int) (host : Str) :
    run_cycle st none e ts host
      = (st, [("source", .jstr (str "ups")),
              ("timestamp", .jint ts),
              ("host", .jstr host),
              ("alive", .jint 0),
              ("ups_status", .jint 9),
              ("ups_on_line", .jint (-1)),
              ("status_raw", .jstr (str "unknown")),
              ("error", .jstr e)], 10) ∧
    (BACKOFF_ERROR_SEC : Int) = 10 ∧
    (run_cycle st none e ts host).1.last_known_status_num
      = st.last_known_status_num ∧
    (run_cycle st none e ts host).1.last_known_status_text
      = st.last_known_status_text :=
  ⟨rfl, rfl, rfl, rfl⟩

/-- C9 (amended): every optional numeric enrichment field appears in the
outbound record exactly when the corresponding raw key parses with the
field's parser, and is entirely absent otherwise (never null, never a
zero default).  The float-parsed fields (charge, load, voltages, nominal
values, real power) accept comma as decimal separator and tolerate
trailing unit text via the leading token; the integer runtime field is
parsed with `to_int`, which accepts plain or decimal-point numbers and a
leading integer token but rejects a comma decimal, so a comma-decimal
runtime value is omitted. -/
theorem c9_enrichment_presence :
    (∀ eff sn chg data ts host,
      (hasKey (ok_payload eff sn chg data ts host) "battery_percent"
        = (to_float (dictGet data (str "battery.charge"))).isSome) ∧
      (hasKey (ok_payload eff sn chg data ts host) "runtime_total_sec"
        = (to_int (dictGet data (str "battery.runtime"))).isSome) ∧
      (hasKey (ok_payload eff sn chg data ts host) "load_percent"
        = (to_float (dictGet data (str "ups.load"))).isSome) ∧
      (hasKey (ok_payload eff sn chg data ts host) "input_voltage"
        = (to_float (dictGet data (str "input.voltage"))).isSome) ∧
      (hasKey (ok_payload eff sn chg data ts host) "battery_voltage"
        = (to_float (dictGet data (str "battery.voltage"))).isSome) ∧
      (hasKey (ok_payload eff sn chg data ts host) "input_voltage_nominal"
        = (to_float (dictGet data (str "input.voltage.nominal"))).isSome) ∧
      (hasKey (ok_payload eff sn chg data ts host) "battery_voltage_nominal"
        = (to_float (dictGet data (str "battery.voltage.nominal"))).isSome) ∧
      (hasKey (ok_payload eff sn chg data ts host) "realpower_nominal"
        = (to_float (dictGet data (str "ups.realpower.nominal"))).isSome)) ∧
    (∀ st data ts host,
      (run_cycle_ok st data ts host).payload
        = ok_payload (run_cycle_ok st data ts host).eff_status
            (map_status (run_cycle_ok st data ts host).eff_status).1
            (parse_charging_flag (run_cycle_ok st data ts host).eff_status)
            data ts host) ∧
    to_float (some (str "12,5 V")) = some ((25 : ℚ) / 2) ∧
    to_float (some (str "")) = none ∧
    to_float none = none ∧
    to_int (some (str "125,5")) = none ∧
    to_int (some (str "125 sec")) = some 125 ∧
    to_int (some (str "12.7")) = some 12 ∧
    to_int none = none := by
  refine ⟨?_, fun st data ts host => rfl, by with_unfolding_all rfl,
    by with_unfolding_all rfl, by with_unfolding_all rfl,
    by with_unfolding_all rfl, by with_unfolding_all rfl,
    by with_unfolding_all rfl, by with_unfolding_all rfl⟩
  intro eff sn chg data ts host
  unfold ok_payload
  split_ifs with hc <;>
    refine ⟨?_, ?_, ?_, ?_, ?_, ?_, ?_, ?_⟩ <;>
      (simp only [hasKey_append, hasKey_optFloat, hasKey_optStr,
         hasKey_runtimeFields]
       simp [hasKey])

/-- C9 (counterexample): on a sample where `battery.runtime` holds the
comma-decimal value 125,5 — which the claim says parses (comma as decimal
separator) — the runtime field is absent from the record, while the same
comma value under `battery.charge` (parsed with `to_float`) is present. -/
theorem c9_counterexample :
    hasKey (run_cycle_ok initState
        [(str "ups.status", str "OL"),
         (str "battery.runtime", str "125,5"),
         (str "battery.charge", str "12,5")] 0 []).payload
      "runtime_total_sec" = false ∧
    hasKey (run_cycle_ok initState
        [(str "ups.status", str "OL"),
         (str "battery.runtime", str "125,5"),
         (str "battery.charge", str "12,5")] 0 []).payload
      "battery_percent" = true :=
  ⟨by with_unfolding_all rfl, by with_unfolding_all rfl⟩
